import Mathlib

/-!
Verification of the `MLGitClient` registry client (`src/mlgit/mlgit_client.py`).

The client composes an external remote store (file read, directory push/pull),
an external serializer (`PickableObject.save` / `restore`) and the local
filesystem. We embed the client's own logic shallowly:

* remote path construction (`model_remote_path`);
* the backtest merge algorithm of `log_model_backtest` (normalisation,
  overwrite mask, append of fresh keys, sort by index);
* the error-handling structure (`Except`-valued reads and pushes; the bare
  `except:` around the prior-backtest read);
* the local temp-file staging of `log_json_artifact` / `log_pandas_artifact`
  (the set of files in the working directory threaded through the call);
* the local-path computation of `get_model_version`, including the Python
  fact that `os.mkdir` returns `None`;
* the step order of `log_model_version_from_local` as a small state machine
  over the remote store, with fault injection by truncating the step list.

Index keys and timestamps are embedded as `Int` (datetimes compare totally);
cell values as `List Int`; column labels as a sum of string and non-string
labels so that `columns.astype(str)` is observable.
-/

namespace MLGit

/-! ## Path addressing (`model_remote_path`, lines 27-33) -/

/-- `model_remote_path`: '/'-join of the non-`None` components of
`[registry_dpath, model_name, model_version, artifact_name]`. -/
def model_remote_path (registry_dpath : Option String) (model_name : String)
    (model_version : Option String) (artifact_name : Option String) : String :=
  String.intercalate "/"
    (([registry_dpath, some model_name, model_version, artifact_name]).filterMap id)

/-! ## Backtest data model -/

/-- A stored backtest row: index key, prediction-column values, and the
`version_timestamp` column. -/
structure BRow where
  key : Int
  vals : List Int
  vt : Int
deriving DecidableEq, Repr

/-- A row of a submitted (new) backtest series before the `version_timestamp`
column is attached: index key and prediction-column values. -/
abbrev NewRow := Int × List Int

/-- A column label as pandas sees it: already a string, or a non-string label
(embedded as an integer) that `columns.astype(str)` converts. -/
inductive ColLabel where
  | str (s : String)
  | int (n : Int)
deriving DecidableEq, Repr

/-- The effect of `astype(str)` on one column label. -/
def ColLabel.toStr : ColLabel → ColLabel
  | .str s => .str s
  | .int n => .str (toString n)

/-- Whether a column label is a string label. -/
def ColLabel.isStr : ColLabel → Bool
  | .str _ => true
  | .int _ => false

/-- The caller's dataframe object: whether its index is a PeriodIndex, the
index name, the column labels, the rows, and the `version_timestamp` column
(a constant, when present). -/
structure DFrame where
  isPeriod : Bool
  indexName : Option String
  cols : List ColLabel
  rows : List NewRow
  vtCol : Option Int
deriving DecidableEq, Repr

/-- `index.max()`: the maximum of the index keys (meaningful for a nonempty
index, as in the source where an empty index would give `NaT`). -/
def maxKey (rows : List NewRow) : Int :=
  (rows.map (fun r => r.1)).foldl max ((rows.map (fun r => r.1)).headD 0)

/-- Attach the constant `version_timestamp` column to every row
(`model_backtest["version_timestamp"] = version_timestamp`, line 137). -/
def tagRows (new : List NewRow) (vtN : Int) : List BRow :=
  new.map (fun r => ⟨r.1, r.2, vtN⟩)

/-- Lines 123-137 of `log_model_backtest`: default the version timestamp to
`index.max()`, convert a period index to timestamps, default the index name
to `"date"`, coerce column labels to strings, attach the
`version_timestamp` column.  All of these are in-place mutations of the
caller's dataframe, so the mutated frame is returned together with the
resolved version timestamp. -/
def normalizeBacktest (df : DFrame) (vtOpt : Option Int) : DFrame × Int :=
  let vtN := match vtOpt with
    | some t => t
    | none => maxKey df.rows
  let df := if df.isPeriod then { df with isPeriod := false } else df
  let df := if df.indexName = none then { df with indexName := some "date" } else df
  let df := { df with cols := df.cols.map ColLabel.toStr }
  let df := { df with vtCol := some vtN }
  (df, vtN)

/-! ## The overwrite mask and merge (lines 145-155) -/

/-- The boolean mask of lines 146-149, one entry per prior row:
`index.isin(new index) & (version_timestamp > new vt) & (index < version_timestamp)`. -/
def overrideMask (prior : List BRow) (newKeys : List Int) (vtN : Int) : List Bool :=
  prior.map (fun p => newKeys.contains p.key && decide (vtN < p.vt) && decide (p.key < p.vt))

/-- Label-aligned lookup of the new series' row for a key (pandas aligns the
right-hand side of a masked assignment by index label). -/
def lookupNewRow (k : Int) (new : List NewRow) : Option (List Int) :=
  (new.find? (fun r => r.1 = k)).map (fun r => r.2)

/-- The masked assignment `prior[mask] = model_backtest` (line 146-150): rows
where the mask holds receive the new series' label-aligned values, including
the new `version_timestamp`; other rows are unchanged. -/
def applyOverride (prior : List BRow) (mask : List Bool) (new : List NewRow)
    (vtN : Int) : List BRow :=
  (prior.zip mask).map (fun pb =>
    if pb.2 then
      match lookupNewRow pb.1.key new with
      | some v => ⟨pb.1.key, v, vtN⟩
      | none => pb.1
    else pb.1)

/-- The full overwrite step of lines 145-150. -/
def overrideStep (prior : List BRow) (new : List NewRow) (vtN : Int) : List BRow :=
  applyOverride prior (overrideMask prior (new.map (fun r => r.1)) vtN) new vtN

/-- Ordering of stored rows by index key. -/
def keyLE (p q : BRow) : Prop :=
  p.key ≤ q.key

instance : DecidableRel keyLE :=
  fun p q => inferInstanceAs (Decidable (p.key ≤ q.key))

instance : IsTotal BRow keyLE :=
  ⟨fun a b => Int.le_total a.key b.key⟩

instance : IsTrans BRow keyLE :=
  ⟨fun _ _ _ hab hbc => le_trans hab hbc⟩

/-- Lines 152-155: the overwritten prior series, concatenated with the new
rows whose keys are absent from the prior index, sorted by index key. -/
def mergeBacktest (prior : List BRow) (new : List NewRow) (vtN : Int) : List BRow :=
  let overridden := overrideStep prior new vtN
  let appended := tagRows
    (new.filter (fun r => decide (r.1 ∉ prior.map (fun p => p.key)))) vtN
  List.insertionSort keyLE (overridden ++ appended)

/-! ## Client-level error structure -/

/-- Failure kinds surfaced by the collaborators. -/
inductive ClientError where
  | notFound
  | timeout
  | transport
  | parseError
  | localResource
deriving DecidableEq, Repr

/-- Lines 139-157 of `log_model_backtest`, after normalisation: the prior
backtest is read (`priorRead`); the bare `except:` of line 141 turns ANY
failure of that read into the first-write branch; otherwise the merge is
performed; either way the result is pushed via `log_pandas_artifact`.  The
successful value is the table that was stored. -/
def log_model_backtest (priorRead : Except ClientError (List BRow))
    (push : List BRow → Except ClientError Unit)
    (new : List NewRow) (vtN : Int) : Except ClientError (List BRow) :=
  match priorRead with
  | .error _ =>
    let t := tagRows new vtN
    (push t).map (fun _ => t)
  | .ok prior =>
    let t := mergeBacktest prior new vtN
    (push t).map (fun _ => t)

/-- The whole of `log_model_backtest` (lines 119-157): normalise the caller's
frame in place, then read-merge-push.  Returns the push result together with
the caller's dataframe object as the call leaves it. -/
def logModelBacktestFull (priorRead : Except ClientError (List BRow))
    (push : List BRow → Except ClientError Unit)
    (df : DFrame) (vtOpt : Option Int) :
    Except ClientError (List BRow) × DFrame :=
  let p := normalizeBacktest df vtOpt
  (log_model_backtest priorRead push p.1.rows p.2, p.1)

/-- `get_model_backtest` against a remote store holding `stored`: fails with
NotFound when no backtest was ever logged, otherwise returns the stored
table (the CSV round trip and datetime coercions are value-faithful). -/
def get_model_backtest (stored : Option (List BRow)) : Except ClientError (List BRow) :=
  match stored with
  | none => .error .notFound
  | some t => .ok t

/-- First backtest log followed by `get_model_backtest`: no prior backtest
exists, the push succeeds, and the freshly stored table is read back. -/
def first_log_then_get (df : DFrame) (vtOpt : Option Int) :
    Except ClientError (List BRow) :=
  match (logModelBacktestFull (Except.error ClientError.notFound)
      (fun _ => Except.ok ()) df vtOpt).1 with
  | .ok t => get_model_backtest (some t)
  | .error e => .error e

/-! ## Local temp-file staging (`log_json_artifact` / `log_pandas_artifact`) -/

/-- `log_json_artifact` (lines 98-107), tracking the set of files in the
working directory: write `<name>.json`, push it (`pushOk` says whether the
push succeeds), then `os.remove` — which is skipped when the push raises,
because there is no `try`/`finally` around it. -/
def log_json_artifact (fs : List String) (artifact_name : String)
    (pushOk : Bool) : Except ClientError Unit × List String :=
  let tmp := artifact_name ++ ".json"
  let fs1 := tmp :: fs
  if pushOk then (Except.ok (), fs1.erase tmp)
  else (Except.error ClientError.transport, fs1)

/-- `log_pandas_artifact` (lines 109-117): same staging pattern with
`<name>.csv`. -/
def log_pandas_artifact (fs : List String) (artifact_name : String)
    (pushOk : Bool) : Except ClientError Unit × List String :=
  let tmp := artifact_name ++ ".csv"
  let fs1 := tmp :: fs
  if pushOk then (Except.ok (), fs1.erase tmp)
  else (Except.error ClientError.transport, fs1)

/-! ## `get_model_version` (lines 67-78) -/

/-- Failures inside `get_model_version`. -/
inductive PyError where
  | typeError
  | collaboratorFailure
deriving DecidableEq, Repr

/-- Python's `os.mkdir(path)`: creates the directory as a side effect and
returns `None`.  Line 68 binds this return value to
`model_version_local_dpath`. -/
def os_mkdir (_path : String) : Option String :=
  none

/-- `os.path.join` applied to the possibly-`None` local path: joining from
`None` raises `TypeError`. -/
def os_path_join_opt : Option String → String → Except PyError String
  | none, _ => .error .typeError
  | some d, s => .ok (d ++ "/" ++ s)

/-- `get_model_version`: bind `os.mkdir(...)`'s return value as the local
directory path, pull the remote version directory there, restore the model
from the `model` sub-path, remove the directory and return the model.
`pull` and `restore` are the external collaborators, quantified over all
behaviours. -/
def get_model_version {α : Type} (pull : Option String → Except PyError Unit)
    (restore : String → Except PyError α) : Except PyError α :=
  let dpath := os_mkdir "temp_model_version"
  match pull dpath with
  | .error e => .error e
  | .ok _ =>
    match os_path_join_opt dpath "model" with
    | .error e => .error e
    | .ok p => restore p

/-! ## `log_model_version_from_local` as a step machine (lines 181-193) -/

/-- The consecutive steps of `log_model_version_from_local`: push the version
directory, read the version list, append the new id locally, write the
temporary `versions.json`, push it, remove the temporary file. -/
inductive VStep where
  | pushVersionDir
  | readVersionList
  | appendLocal
  | writeTempJson
  | pushVersionList
  | removeTempJson
deriving DecidableEq, Repr

/-- Durable remote state: whether the version directory content has been
pushed, and whether the version id is recorded in the stored version list. -/
structure RemoteState where
  contentPushed : Bool
  versionListed : Bool
deriving DecidableEq, Repr

/-- Effect of one step on the durable remote state. -/
def versionStep (s : RemoteState) : VStep → RemoteState
  | .pushVersionDir => { s with contentPushed := true }
  | .pushVersionList => { s with versionListed := true }
  | _ => s

/-- The step order of `log_model_version_from_local`, as written. -/
def versionScript : List VStep :=
  [.pushVersionDir, .readVersionList, .appendLocal, .writeTempJson,
   .pushVersionList, .removeTempJson]

/-- The remote state after the first `k` steps — a failure injected after
step `k` leaves exactly this state. -/
def runVersionLog (k : Nat) : RemoteState :=
  (versionScript.take k).foldl versionStep ⟨false, false⟩

/-! ## Helper lemmas -/

theorem le_foldl_max_init : ∀ (l : List Int) (a : Int), a ≤ l.foldl max a
  | [], a => le_refl a
  | x :: tl, a => le_trans (le_max_left a x) (le_foldl_max_init tl (max a x))

theorem le_foldl_max_of_mem : ∀ (l : List Int) (a x : Int), x ∈ l → x ≤ l.foldl max a
  | [], _, _, hx => absurd hx (List.not_mem_nil _)
  | y :: tl, a, x, hx => by
    rcases List.mem_cons.mp hx with rfl | hx
    · exact le_trans (le_max_right a x) (le_foldl_max_init tl (max a x))
    · exact le_foldl_max_of_mem tl (max a y) x hx

theorem foldl_max_mem : ∀ (l : List Int) (a : Int), l.foldl max a = a ∨ l.foldl max a ∈ l
  | [], a => Or.inl rfl
  | y :: tl, a => by
    rcases foldl_max_mem tl (max a y) with h | h
    · rcases max_choice a y with hm | hm
      · left
        rw [List.foldl_cons, h, hm]
      · right
        rw [List.foldl_cons, h, hm]
        exact List.mem_cons_self y tl
    · right
      exact List.mem_cons_of_mem y h

/-! ## Claim theorems -/

/-- C6: `model_remote_path` returns the '/'-join of the non-null elements of
`[registry_root, model_name, model_version, artifact_name]`, omitting absent
optional segments entirely and never leaving an empty segment:
`model_remote_path "m" = "<root>/m"`; with a version, `"<root>/m/v1"`; with
version and artifact, `"<root>/m/v1/a"`; and omitting the version while
giving an artifact still joins correctly as `"<root>/m/a"`. -/
theorem model_remote_path_joins (r m v a : String) :
    model_remote_path (some r) m none none = r ++ "/" ++ m ∧
    model_remote_path (some r) m (some v) none = r ++ "/" ++ m ++ "/" ++ v ∧
    model_remote_path (some r) m (some v) (some a)
      = r ++ "/" ++ m ++ "/" ++ v ++ "/" ++ a ∧
    model_remote_path (some r) m none (some a) = r ++ "/" ++ m ++ "/" ++ a := by
  refine ⟨?_, ?_, ?_, ?_⟩ <;>
    simp [model_remote_path, String.intercalate, String.intercalate.go,
      String.append_assoc]

/-- C4 is violated by the code: `log_json_artifact` and `log_pandas_artifact`
stage the temp file, push, and only then `os.remove` it, with no
`try`/`finally` — when the push raises, the exception propagates before the
removal, so `<name>.json` / `<name>.csv` survives the call in the working
directory.  On the success path the file is removed. -/
theorem staging_file_survives_failed_push :
    (log_json_artifact [] "versions" false).2 = ["versions.json"] ∧
    (log_json_artifact [] "versions" false).1
      = Except.error ClientError.transport ∧
    (log_pandas_artifact [] "backtest" false).2 = ["backtest.csv"] ∧
    (log_pandas_artifact [] "backtest" false).1
      = Except.error ClientError.transport ∧
    (log_json_artifact [] "versions" true).2 = [] ∧
    (log_pandas_artifact [] "backtest" true).2 = [] := by
  refine ⟨rfl, rfl, rfl, rfl, ?_, ?_⟩ <;> decide

/-- C5 is violated by the code: line 68 binds the RETURN VALUE of
`os.mkdir(...)` — which is `None` in Python — as the local directory path,
so `os.path.join(None, "model")` raises `TypeError` (and the pull is handed
`None` as its destination).  Whatever the collaborators do, no call to
`get_model_version` ever returns a restored model, and the cleanup line is
never reached. -/
theorem get_model_version_never_returns {α : Type}
    (pull : Option String → Except PyError Unit)
    (restore : String → Except PyError α) :
    (get_model_version pull restore).isOk = false := by
  unfold get_model_version os_mkdir
  cases h : pull none <;> simp [h, os_path_join_opt, Except.isOk, Except.toBool]

/-- C7: in `log_model_version_from_local` the version directory is pushed
strictly before the version id is recorded in the stored version list; a
failure after any prefix of the steps leaves a state in which a listed
version always has its content pushed (pushed-but-unlisted is the only
intermediate divergence, never listed-but-missing). -/
theorem version_listed_implies_content_pushed (k : Nat)
    (h : (runVersionLog k).versionListed = true) :
    (runVersionLog k).contentPushed = true := by
  by_cases h6 : 6 ≤ k
  · have e : runVersionLog k = runVersionLog 6 := by
      unfold runVersionLog
      rw [List.take_of_length_le (by simp [versionScript]; omega),
        List.take_of_length_le (by simp [versionScript])]
    rw [e]
    decide
  · push_neg at h6
    interval_cases k <;> revert h <;> decide

/-- Witness for C7 at the fault point right after the version-list push:
the version is listed and its content is pushed. -/
theorem version_listed_implies_content_pushed_witness :
    (runVersionLog 5).versionListed = true ∧
    (runVersionLog 5).contentPushed = true :=
  ⟨by decide, version_listed_implies_content_pushed 5 (by decide)⟩

theorem zip_map_self {α β γ : Type} (f : α → β) (g : α × β → γ) :
    ∀ l : List α, ((l.zip (l.map f)).map g) = l.map (fun a => g (a, f a))
  | [] => rfl
  | a :: tl => by
    simp only [List.map_cons, List.zip_cons_cons, zip_map_self f g tl]

/-- The masked assignment of lines 146-150, expressed row by row. -/
theorem overrideStep_eq_map (prior : List BRow) (new : List NewRow) (vtN : Int) :
    overrideStep prior new vtN = prior.map (fun p =>
      if ((new.map (fun r => r.1)).contains p.key
          && decide (vtN < p.vt) && decide (p.key < p.vt)) then
        match lookupNewRow p.key new with
        | some v => ⟨p.key, v, vtN⟩
        | none => p
      else p) := by
  unfold overrideStep applyOverride overrideMask
  exact zip_map_self _ _ prior

theorem find?_key_of_nodup :
    ∀ (new : List NewRow), (new.map (fun r => r.1)).Nodup →
      ∀ (k : Int) (v : List Int), (k, v) ∈ new →
        new.find? (fun r => r.1 = k) = some (k, v) := by
  intro new
  induction new with
  | nil =>
    intro _ k v hv
    cases hv
  | cons a tl ih =>
    intro hnd k v hv
    rw [List.map_cons, List.nodup_cons] at hnd
    rcases List.mem_cons.mp hv with he | hv
    · subst he
      simp [List.find?]
    · have hak : ¬(a.1 = k) := by
        intro e
        exact hnd.1 (e ▸ List.mem_map_of_mem (fun r => r.1) hv)
      rw [List.find?_cons_of_neg _ (by simpa using hak)]
      exact ih hnd.2 k v hv

/-- C1: with an existing prior backtest, a prior row with index key `k` is
overwritten in place by the new series' row for `k` exactly when (a) `k`
appears in the new series' index, (b) the prior row's `version_timestamp`
is strictly greater than the new series' `version_timestamp`, and (c) the
prior row's key is strictly less than that row's own `version_timestamp`;
when the conditions hold the row becomes the new series' values for `k`
together with the new `version_timestamp`, and otherwise the row is left
unchanged. -/
theorem override_replaces_iff (prior : List BRow) (new : List NewRow) (vtN : Int)
    (hnd : (new.map (fun r => r.1)).Nodup) :
    List.Forall₂ (fun p q =>
      ((p.key ∈ new.map (fun r => r.1) ∧ vtN < p.vt ∧ p.key < p.vt) →
        ∀ v, (p.key, v) ∈ new → q = ⟨p.key, v, vtN⟩) ∧
      (¬(p.key ∈ new.map (fun r => r.1) ∧ vtN < p.vt ∧ p.key < p.vt) → q = p))
      prior (overrideStep prior new vtN) := by
  rw [overrideStep_eq_map, List.forall₂_map_right_iff, List.forall₂_same]
  intro p _
  constructor
  · intro hcond v hv
    have hb : ((new.map (fun r => r.1)).contains p.key
        && decide (vtN < p.vt) && decide (p.key < p.vt)) = true := by
      rw [Bool.and_eq_true, Bool.and_eq_true]
      exact ⟨⟨List.elem_iff.mpr hcond.1, decide_eq_true hcond.2.1⟩,
        decide_eq_true hcond.2.2⟩
    rw [if_pos hb]
    have hl : lookupNewRow p.key new = some v := by
      unfold lookupNewRow
      rw [find?_key_of_nodup new hnd p.key v hv]
      rfl
    simp [hl]
  · intro hncond
    have hb : ¬(((new.map (fun r => r.1)).contains p.key
        && decide (vtN < p.vt) && decide (p.key < p.vt)) = true) := by
      simp only [Bool.and_eq_true, decide_eq_true_eq]
      intro hc
      exact hncond ⟨List.elem_iff.mp hc.1.1, hc.1.2, hc.2⟩
    rw [if_neg hb]

/-- Witness for C1: a prior row at key 1 with `version_timestamp` 10
(1 ∈ new index, 10 > 5, 1 < 10) against a new series at key 1 with
`version_timestamp` 5 — the characterisation applies and forces the
replacement. -/
theorem override_replaces_iff_witness :
    List.Forall₂ (fun (p q : BRow) =>
      ((p.key ∈ ([(1, [9])] : List NewRow).map (fun r => r.1)
          ∧ (5 : Int) < p.vt ∧ p.key < p.vt) →
        ∀ v, (p.key, v) ∈ ([(1, [9])] : List NewRow) → q = ⟨p.key, v, 5⟩) ∧
      (¬(p.key ∈ ([(1, [9])] : List NewRow).map (fun r => r.1)
          ∧ (5 : Int) < p.vt ∧ p.key < p.vt) → q = p))
      [⟨1, [7], 10⟩] (overrideStep [⟨1, [7], 10⟩] [(1, [9])] 5) :=
  override_replaces_iff [⟨1, [7], 10⟩] [(1, [9])] 5 (by decide)

/-- C2 fails on the code: a prior row at key 1 with `version_timestamp` 10,
merged with a new series at key 1 carrying `version_timestamp` 5, has its
stored values overwritten and its `version_timestamp` decreased from 10
to 5 — the overwrite mask fires exactly when the prior row's recorded
version is NEWER than the submitted one. -/
theorem override_decreases_vt_example :
    mergeBacktest [⟨1, [7], 10⟩] [(1, [9])] 5 = [⟨1, [9], 5⟩] ∧
    (5 : Int) < 10 := by
  exact ⟨by decide, by decide⟩

/-- C2 amended: the overwrite step of the merge replaces a prior row only
when that row's recorded `version_timestamp` is strictly greater than the
new series' `version_timestamp`, so every row actually changed by the
overwrite has its `version_timestamp` strictly DECREASED to the new value
(an older version's values do overwrite a newer version's values). -/
theorem override_only_decreases_vt (prior : List BRow) (new : List NewRow)
    (vtN : Int) :
    List.Forall₂ (fun p q => q ≠ p → q.vt = vtN ∧ vtN < p.vt)
      prior (overrideStep prior new vtN) := by
  rw [overrideStep_eq_map, List.forall₂_map_right_iff, List.forall₂_same]
  intro p _ hq
  by_cases hb : ((new.map (fun r => r.1)).contains p.key
      && decide (vtN < p.vt) && decide (p.key < p.vt)) = true
  · rw [if_pos hb] at hq ⊢
    have hvt : vtN < p.vt := by
      have := hb
      simp only [Bool.and_eq_true, decide_eq_true_eq] at this
      exact this.1.2
    cases hl : lookupNewRow p.key new with
    | none =>
      rw [hl] at hq
      exact absurd rfl hq
    | some v =>
      exact ⟨rfl, hvt⟩
  · rw [if_neg hb] at hq
    exact absurd rfl hq

/-- Witness for C2's amended statement at a concrete merge input. -/
theorem override_only_decreases_vt_witness :
    List.Forall₂ (fun (p q : BRow) => q ≠ p → q.vt = 5 ∧ (5 : Int) < p.vt)
      [⟨1, [7], 10⟩, ⟨2, [8], 3⟩]
      (overrideStep [⟨1, [7], 10⟩, ⟨2, [8], 3⟩] [(1, [9]), (2, [6])] 5) :=
  override_only_decreases_vt [⟨1, [7], 10⟩, ⟨2, [8], 3⟩] [(1, [9]), (2, [6])] 5

/-- C3 fails on the code: the `try`/`except` of lines 139-143 is a BARE
`except:`, so a timeout (or any other failure) of the prior-backtest read
is also swallowed and treated as a first write — here a prior read failing
with `timeout` produces a successful store of the new series instead of
propagating the timeout to the caller. -/
theorem prior_read_timeout_swallowed :
    log_model_backtest (Except.error ClientError.timeout)
      (fun _ => Except.ok ()) [(1, [2])] 1 = Except.ok [⟨1, [2], 1⟩] ∧
    log_model_backtest (Except.error ClientError.timeout)
      (fun _ => Except.ok ()) [(1, [2])] 1
      ≠ Except.error ClientError.timeout := by
  refine ⟨rfl, fun h => ?_⟩
  rw [show log_model_backtest (Except.error ClientError.timeout)
      (fun _ => Except.ok ()) [(1, [2])] 1 = Except.ok [⟨1, [2], 1⟩] from rfl] at h
  exact Except.noConfusion h

/-- C3 amended: EVERY failure of the prior-backtest read — not only
NotFound — is caught by the bare `except:` and treated as a first write
(all failure kinds lead to the same stored result); failures of the push
itself are not caught and propagate unchanged to the caller, on both the
first-write branch and the merge branch. -/
theorem backtest_error_handling (push : List BRow → Except ClientError Unit)
    (new : List NewRow) (vtN : Int) :
    (∀ e e' : ClientError,
      log_model_backtest (Except.error e) push new vtN
        = log_model_backtest (Except.error e') push new vtN) ∧
    (∀ e : ClientError,
      log_model_backtest (Except.error e) push new vtN
        = (push (tagRows new vtN)).map (fun _ => tagRows new vtN)) ∧
    (∀ (prior : List BRow) (pe : ClientError),
      push (mergeBacktest prior new vtN) = Except.error pe →
        log_model_backtest (Except.ok prior) push new vtN = Except.error pe) ∧
    (∀ (pe : ClientError) (e : ClientError),
      push (tagRows new vtN) = Except.error pe →
        log_model_backtest (Except.error e) push new vtN = Except.error pe) := by
  refine ⟨fun e e' => rfl, fun e => rfl, ?_, ?_⟩
  · intro prior pe h
    simp [log_model_backtest, h, Except.map]
  · intro pe e h
    simp [log_model_backtest, h, Except.map]

/-- Witness for C3's amended statement: a timeout and a parse error of the
prior read lead to the same (first-write) result, and a failing push on the
merge branch propagates its transport error. -/
theorem backtest_error_handling_witness :
    log_model_backtest (Except.error ClientError.timeout)
      (fun _ => Except.ok ()) [(1, [2]), (3, [4])] 1
      = log_model_backtest (Except.error ClientError.parseError)
        (fun _ => Except.ok ()) [(1, [2]), (3, [4])] 1 ∧
    log_model_backtest (Except.ok [⟨1, [2], 1⟩])
      (fun _ => Except.error ClientError.transport) [(1, [2]), (3, [4])] 1
      = Except.error ClientError.transport :=
  ⟨(backtest_error_handling (fun _ => Except.ok ()) [(1, [2]), (3, [4])] 1).1
      ClientError.timeout ClientError.parseError,
    (backtest_error_handling (fun _ => Except.error ClientError.transport)
      [(1, [2]), (3, [4])] 1).2.2.1 [⟨1, [2], 1⟩] ClientError.transport rfl⟩

/-- C9: with an existing prior series, every new-series row whose index key
is absent from the prior series is appended (with the new
`version_timestamp`), and the stored result is sorted by index key
ascending. -/
theorem merge_appends_and_sorts (prior : List BRow) (new : List NewRow)
    (vtN : Int) :
    List.Sorted keyLE (mergeBacktest prior new vtN) ∧
    (∀ r ∈ new, r.1 ∉ prior.map (fun p => p.key) →
      (⟨r.1, r.2, vtN⟩ : BRow) ∈ mergeBacktest prior new vtN) := by
  constructor
  · exact List.sorted_insertionSort keyLE _
  · intro r hr hfresh
    show (⟨r.1, r.2, vtN⟩ : BRow) ∈ List.insertionSort keyLE
      (overrideStep prior new vtN ++ tagRows
        (new.filter (fun r => decide (r.1 ∉ prior.map (fun p => p.key)))) vtN)
    rw [(List.perm_insertionSort keyLE _).mem_iff]
    apply List.mem_append_right
    exact List.mem_map_of_mem _
      (List.mem_filter.mpr ⟨hr, decide_eq_true hfresh⟩)

/-- Witness for C9: prior keys {1,2,3}, new keys {4,5} — the merge result is
sorted, contains the appended row for key 4, and is exactly the 5 sorted
rows with no prior row overwritten. -/
theorem merge_appends_and_sorts_witness :
    List.Sorted keyLE (mergeBacktest
      [⟨1, [10], 3⟩, ⟨2, [20], 3⟩, ⟨3, [30], 3⟩] [(4, [40]), (5, [50])] 5) ∧
    (⟨4, [40], 5⟩ : BRow) ∈ mergeBacktest
      [⟨1, [10], 3⟩, ⟨2, [20], 3⟩, ⟨3, [30], 3⟩] [(4, [40]), (5, [50])] 5 ∧
    mergeBacktest [⟨1, [10], 3⟩, ⟨2, [20], 3⟩, ⟨3, [30], 3⟩]
      [(4, [40]), (5, [50])] 5
      = [⟨1, [10], 3⟩, ⟨2, [20], 3⟩, ⟨3, [30], 3⟩, ⟨4, [40], 5⟩, ⟨5, [50], 5⟩] :=
  ⟨(merge_appends_and_sorts [⟨1, [10], 3⟩, ⟨2, [20], 3⟩, ⟨3, [30], 3⟩]
      [(4, [40]), (5, [50])] 5).1,
    (merge_appends_and_sorts [⟨1, [10], 3⟩, ⟨2, [20], 3⟩, ⟨3, [30], 3⟩]
      [(4, [40]), (5, [50])] 5).2 (4, [40]) (by decide) (by decide),
    by decide⟩

/-- The normalisation of lines 123-137, characterised field by field. -/
theorem normalizeBacktest_eq (df : DFrame) (vtOpt : Option Int) :
    normalizeBacktest df vtOpt =
      (⟨false,
        if df.indexName = none then some "date" else df.indexName,
        df.cols.map ColLabel.toStr, df.rows,
        some (match vtOpt with | some t => t | none => maxKey df.rows)⟩,
       match vtOpt with | some t => t | none => maxKey df.rows) := by
  by_cases hp : df.isPeriod <;> by_cases hn : df.indexName = none <;>
    simp [normalizeBacktest, hp, hn]

/-- C8: with no prior backtest and no explicit `version_timestamp`,
`log_model_backtest` followed by `get_model_backtest` returns exactly the
input rows with a constant `version_timestamp` column whose value is the
maximum index key of the input (it bounds every key and is itself one of
the keys). -/
theorem first_backtest_roundtrip (df : DFrame) (h : df.rows ≠ []) :
    first_log_then_get df none
      = Except.ok (tagRows df.rows (maxKey df.rows)) ∧
    (∀ r ∈ df.rows, r.1 ≤ maxKey df.rows) ∧
    maxKey df.rows ∈ df.rows.map (fun r => r.1) := by
  refine ⟨?_, ?_, ?_⟩
  · simp [first_log_then_get, logModelBacktestFull, normalizeBacktest_eq,
      log_model_backtest, get_model_backtest, Except.map]
  · intro r hr
    exact le_foldl_max_of_mem _ _ _ (List.mem_map_of_mem (fun r => r.1) hr)
  · obtain ⟨r0, tl, e⟩ : ∃ r0 tl, df.rows = r0 :: tl := by
      cases hrows : df.rows with
      | nil => exact absurd hrows h
      | cons a b => exact ⟨a, b, rfl⟩
    rw [e]
    unfold maxKey
    rcases foldl_max_mem ((r0 :: tl).map (fun r => r.1))
        (((r0 :: tl).map (fun r => r.1)).headD 0) with hm | hm
    · rw [hm]
      simp
    · exact hm

/-- Witness for C8 at a concrete three-row series with unsorted keys: the
stored-and-read-back table is the input tagged with `version_timestamp` 7,
the maximum key. -/
theorem first_backtest_roundtrip_witness :
    ([((3 : Int), [30]), (7, [70]), (5, [50])] : List NewRow) ≠ [] ∧
    first_log_then_get
      ⟨false, none, [ColLabel.str "pred"], [(3, [30]), (7, [70]), (5, [50])], none⟩
      none = Except.ok [⟨3, [30], 7⟩, ⟨7, [70], 7⟩, ⟨5, [50], 7⟩] := by
  refine ⟨by decide, ?_⟩
  have h := first_backtest_roundtrip
    ⟨false, none, [ColLabel.str "pred"], [(3, [30]), (7, [70]), (5, [50])], none⟩
    (by decide)
  exact h.1.trans (congrArg Except.ok (by decide))

/-- C10: `log_model_backtest` mutates the caller's dataframe in place:
after the call the caller's object has its period index converted to
timestamps, its index name set to `"date"` when it was unset (and kept
otherwise), every column label coerced to a string, a constant
`version_timestamp` column attached (defaulted to the maximum index key
when not supplied), with the row data kept — the argument is not treated
as read-only. -/
theorem log_model_backtest_mutates_argument
    (priorRead : Except ClientError (List BRow))
    (push : List BRow → Except ClientError Unit)
    (df : DFrame) (vtOpt : Option Int) :
    ((logModelBacktestFull priorRead push df vtOpt).2).isPeriod = false ∧
    (df.indexName = none →
      ((logModelBacktestFull priorRead push df vtOpt).2).indexName
        = some "date") ∧
    (∀ n, df.indexName = some n →
      ((logModelBacktestFull priorRead push df vtOpt).2).indexName = some n) ∧
    ((logModelBacktestFull priorRead push df vtOpt).2).cols
      = df.cols.map ColLabel.toStr ∧
    ((logModelBacktestFull priorRead push df vtOpt).2).vtCol
      = some (match vtOpt with | some t => t | none => maxKey df.rows) ∧
    ((logModelBacktestFull priorRead push df vtOpt).2).rows = df.rows := by
  have h2 : (logModelBacktestFull priorRead push df vtOpt).2
      = (normalizeBacktest df vtOpt).1 := rfl
  rw [h2, normalizeBacktest_eq]
  refine ⟨rfl, ?_, ?_, rfl, rfl, rfl⟩
  · intro hn
    simp [hn]
  · intro n hn
    simp [hn]

/-- Witness for C10: a frame with a period index, no index name, an integer
column label and no explicit `version_timestamp` comes back from the call
converted, renamed to `"date"`, with the label stringified and
`version_timestamp` 9 = max{2, 9} attached. -/
theorem log_model_backtest_mutates_argument_witness :
    ((logModelBacktestFull (Except.error ClientError.notFound)
      (fun _ => Except.ok ())
      ⟨true, none, [ColLabel.int 0], [(2, [20]), (9, [90])], none⟩
      none).2).isPeriod = false ∧
    ((logModelBacktestFull (Except.error ClientError.notFound)
      (fun _ => Except.ok ())
      ⟨true, none, [ColLabel.int 0], [(2, [20]), (9, [90])], none⟩
      none).2).indexName = some "date" ∧
    ((logModelBacktestFull (Except.error ClientError.notFound)
      (fun _ => Except.ok ())
      ⟨true, none, [ColLabel.int 0], [(2, [20]), (9, [90])], none⟩
      none).2).cols = [ColLabel.str "0"] ∧
    ((logModelBacktestFull (Except.error ClientError.notFound)
      (fun _ => Except.ok ())
      ⟨true, none, [ColLabel.int 0], [(2, [20]), (9, [90])], none⟩
      none).2).vtCol = some 9 ∧
    ((logModelBacktestFull (Except.error ClientError.notFound)
      (fun _ => Except.ok ())
      ⟨true, none, [ColLabel.int 0], [(2, [20]), (9, [90])], none⟩
      none).2).rows = [(2, [20]), (9, [90])] := by
  have h := log_model_backtest_mutates_argument
    (Except.error ClientError.notFound) (fun _ => Except.ok ())
    ⟨true, none, [ColLabel.int 0], [(2, [20]), (9, [90])], none⟩ none
  exact ⟨h.1, h.2.1 rfl, h.2.2.2.1.trans (by decide),
    h.2.2.2.2.1.trans (by decide), h.2.2.2.2.2⟩

end MLGit
